import Mathlib

/-!
Shallow embedding of the procurement business logic of `htdocs/epro`
(models.py, forms.py): save hooks of `PurchaseRequest`, `Item`,
`RequestForQuotation`, `PurchaseOrder`, `PurchaseOrderItem` and
`CommonBaseAbstractModel`, and the validation methods
`validate_gl_account`, `FinanceCodesForm.clean_gl_account` and
`FinanceCodesForm.clean_allocation_percent`.

Monetary values (Python `Decimal`) are modelled as rationals; database
rows as lists of records; fallible Python code (raised exceptions) as
`Except String`.
-/

namespace Epro

/-- Python `round(x, 2)` on the positive `Decimal` amounts occurring here:
round to two decimal places, ties away from zero, modelled exactly over ℚ
(`round` rounds half up, which agrees on the nonnegative amounts used). -/
def round2 (q : ℚ) : ℚ := (round (q * 100) : ℤ) / 100

/-- SQL `MAX` aggregate over a column of integers, as produced by
`aggregate(Max(...))`: `none` when there are no rows. -/
def aggMax : List ℕ → Option ℕ
  | [] => none
  | x :: xs =>
    match aggMax xs with
    | none => some x
    | some m => some (Nat.max x m)

/-- A `PurchaseRequest` row: the columns the save hook reads or writes
(`id`, `office`, `sno`, `status`, `dollar_exchange_rate`); the remaining
columns (dates, approvers, notes, ...) are carried by the ORM unchanged
and are not consulted by any of the verified logic. `office` and `status`
are foreign keys, modelled by their target's key. -/
structure PRRec where
  id : Option ℕ
  office : ℕ
  sno : ℕ
  status : String
  dollar_exchange_rate : ℚ
  deriving Repr, DecidableEq

/-- `sno` column of the rows of one office, in row order:
`PurchaseRequest.objects.filter(office=office)` projected to `sno`. -/
def snosOf (db : List PRRec) (office : ℕ) : List ℕ :=
  (db.filter (fun r => r.office = office)).map (·.sno)

/-- `PurchaseRequestStatus.objects.get(status=s)`: raises `DoesNotExist`
when no such status row exists. -/
def statusGet (statuses : List String) (s : String) : Except String String :=
  if s ∈ statuses then .ok s else .error "PurchaseRequestStatus.DoesNotExist"

/-- `PurchaseRequest.save` (models.py 309-321). On a new record
(`id` unset): looks up the `Drafted` status, sets it, and assigns
`sno := aggregate(Max(sno)) over the same office, defaulting to 0, + 1`;
the row is then inserted (the ORM assigns the primary key `nextId`).
On an existing record the row is updated in place and `sno` is untouched.
(The hook also sets the non-column attribute `self.type`, which no field
stores, and the abstract base's timestamp bookkeeping runs in `super`;
both are invisible to the columns modelled here.) -/
def PurchaseRequest.save (self : PRRec) (statuses : List String)
    (db : List PRRec) (nextId : ℕ) : Except String (PRRec × List PRRec) :=
  match self.id with
  | some _ => .ok (self, db.map (fun r => if r.id = self.id then self else r))
  | none => do
    let st ← statusGet statuses "Drafted"
    let m := (aggMax (snosOf db self.office)).getD 0
    let self' : PRRec := { self with status := st, sno := m + 1, id := some nextId }
    .ok (self', db ++ [self'])

/-- Concrete database for the specification's worked example: office `0`
("office A") has three requests with `sno` 1, 2, 3; office `1`
("office B") has none. -/
def exPRDb : List PRRec :=
  [⟨some 1, 0, 1, "Drafted", 2⟩, ⟨some 2, 0, 2, "Drafted", 2⟩,
   ⟨some 3, 0, 3, "Drafted", 2⟩]

/-- An `Item` row: the columns `Item.save` reads or writes. `unit` and the
audit columns are carried unchanged by the ORM and never consulted;
`purchase_request` is the foreign-key column (the parent's primary key). -/
structure ItemRec where
  id : Option ℕ
  item_sno : ℕ
  purchase_request : ℕ
  quantity_requested : ℕ
  description_pr : String
  description_po : String
  price_estimated_local : ℚ
  price_estimated_usd : ℚ
  price_estimated_local_subtotal : ℚ
  price_estimated_usd_subtotal : ℚ
  deriving Repr, DecidableEq

/-- The `Item` table plus the auto-increment primary-key counter. -/
structure ItemsState where
  items : List ItemRec
  nextId : ℕ
  deriving Repr, DecidableEq

/-- `item_sno` column of the items of one purchase request:
`Item.objects.filter(purchase_request=prPk)` projected to `item_sno`
(a `None` pk matches no row, the column being non-null). -/
def itemSnosOf (items : List ItemRec) (prPk : Option ℕ) : List ℕ :=
  match prPk with
  | none => []
  | some k => (items.filter (fun r => r.purchase_request = k)).map (·.item_sno)

/-- `Item.save` (models.py 410-424), in source order: copy
`description_pr` into an unset `description_po`; recompute
`price_estimated_local_subtotal = round(price_estimated_local *
quantity_requested, 2)`; recompute `price_estimated_usd =
round(price_estimated_local / purchase_request.dollar_exchange_rate, 2)`
— `Decimal` division raises `DivisionByZero` when the exchange rate is 0,
aborting the save —; recompute `price_estimated_usd_subtotal =
round(price_estimated_usd * quantity_requested, 2)`; on a new record
assign `item_sno := aggregate(Max(item_sno)) over the same request,
defaulting to 0, + 1`; then insert (the ORM assigns the primary key) or
update in place. -/
def Item.save (self : ItemRec) (pr : PRRec) (st : ItemsState) :
    Except String (ItemRec × ItemsState) :=
  let self := if self.description_po = "" ∧ ¬ self.description_pr = "" then
    { self with description_po := self.description_pr } else self
  let self := { self with
    price_estimated_local_subtotal := round2 (self.price_estimated_local * self.quantity_requested) }
  if pr.dollar_exchange_rate = 0 then .error "decimal.DivisionByZero" else
  let self := { self with
    price_estimated_usd := round2 (self.price_estimated_local / pr.dollar_exchange_rate) }
  let self := { self with
    price_estimated_usd_subtotal := round2 (self.price_estimated_usd * self.quantity_requested) }
  match self.id with
  | some _ =>
      .ok (self,
        { st with items := st.items.map (fun r => if r.id = self.id then self else r) })
  | none =>
      let m := (aggMax (itemSnosOf st.items pr.id)).getD 0
      let self := { self with item_sno := m + 1, id := some st.nextId }
      .ok (self, ⟨st.items ++ [self], st.nextId + 1⟩)

/-- The user-supplied fields of a fresh `Item` form submission; the
derived columns start at their defaults. -/
structure NewItemFields where
  quantity_requested : ℕ
  description_pr : String
  price_estimated_local : ℚ
  deriving Repr, DecidableEq

/-- A fresh unsaved `Item` instance for the parent request `pr`. -/
def newItem (pr : PRRec) (f : NewItemFields) : ItemRec :=
  ⟨none, 0, (pr.id).getD 0, f.quantity_requested, f.description_pr, "",
   f.price_estimated_local, 0, 0, 0⟩

/-- One user action on the items of a purchase request: creating a new
item (saving a fresh instance; a raised exception leaves the table
unchanged) or deleting an item by primary key. -/
inductive ItemOp
  | create (f : NewItemFields)
  | delete (pk : ℕ)
  deriving Repr, DecidableEq

/-- Apply one item operation to the `Item` table. -/
def applyItemOp (pr : PRRec) (st : ItemsState) : ItemOp → ItemsState
  | .create f =>
      match Item.save (newItem pr f) pr st with
      | .ok (_, st') => st'
      | .error _ => st
  | .delete pk => { st with items := st.items.filter (fun r => ¬ r.id = some pk) }

/-- Apply a sequence of item operations, oldest first. -/
def applyItemOps (pr : PRRec) (st : ItemsState) (ops : List ItemOp) : ItemsState :=
  ops.foldl (applyItemOp pr) st

/-- `MinValueValidator(m)` passes a value `v` exactly when `m ≤ v`. -/
def minValueValidatorOk (m v : ℚ) : Prop := m ≤ v

/-- SQL `SUM` aggregate over a column of decimals, as produced by
`aggregate(Sum(...))`: `none` when there are no rows. -/
def aggSum : List ℚ → Option ℚ
  | [] => none
  | x :: xs => some (x + (aggSum xs).getD 0)

/-- `len(str(n))` for a nonnegative integer `n`: the number of decimal
digits (1 for 0). Fuel-structured so it evaluates in the kernel; `n`
itself bounds the recursion depth. -/
def numDigitsAux : ℕ → ℕ → ℕ
  | 0, _ => 1
  | fuel + 1, n => if n < 10 then 1 else 1 + numDigitsAux fuel (n / 10)

/-- Number of decimal digits of `n`. -/
def numDigits (n : ℕ) : ℕ := numDigitsAux n n

/-- `validate_gl_account` (models.py 98-103): raises a `ValidationError`
when `int(value)` fails (`none` models a non-numeric input) or when
`len(str(int(value)))` exceeds 4; the error raised inside the `try` is
swallowed by the bare `except` and re-raised with the same message. The
field is a `PositiveIntegerField`, so a numeric value is a natural. -/
def validate_gl_account (value : Option ℕ) : Except String Unit :=
  match value with
  | none => .error "must be a four digits long number"
  | some v =>
      if numDigits v > 4 then .error "must be a four digits long number"
      else .ok ()

/-- `FinanceCodesForm.clean_gl_account` (forms.py 219-228): raises when
`int(gl_account)` fails (message as in the source, which says "five")
or when the digit count differs from 4 in either direction. -/
def clean_gl_account (gl_account : Option ℕ) : Except String ℕ :=
  match gl_account with
  | none => .error "GL Account must be a five digits number"
  | some v =>
      if numDigits v > 4 ∨ numDigits v < 4 then
        .error "GL Account must be a four digits number"
      else .ok v

/-- `FinanceCodesForm.clean_allocation_percent` (forms.py 230-251), for a
proposed value (`none` when `float(...)` raises), the cleaned `item`
(`none` when absent), the `allocation_percent` values of the item's
existing finance-code rows, and the editing state (`instance_pk` is `none`
for a new split). In source order: non-number check; missing-item check;
falsy (zero) value check; then, when the form is unsaved and the existing
aggregate sum is truthy (present and nonzero), reject a total above 100,
otherwise reject a bare value above 100. -/
def clean_allocation_percent (instance_pk : Option ℕ) (item : Option ℕ)
    (existing : List ℚ) (allocation_percent : Option ℚ) : Except String ℚ :=
  match allocation_percent with
  | none => .error "Allocation Percent must be a number"
  | some p =>
    match item with
    | none => .error "Finance Codes must be added to an Item"
    | some _ =>
      if p = 0 then .error "Allocation_percent is required."
      else if instance_pk = none ∧ ¬ (aggSum existing).getD 0 = 0 then
        if (aggSum existing).getD 0 + p > 100 then
          .error "Allocations cannot be more than 100%"
        else .ok p
      else
        if p > 100 then .error "Allocations cannot be more than 100%"
        else .ok p

/-- A Python value sitting in the `complete_order_delivery_date`
attribute: the date-typed values the column can hold, or the aggregate
result dict `{'delivery_date__max': ...}` that `RequestForQuotation.save`
actually assigns. Dates are modelled as integers (day ordinals). -/
inductive DateFieldVal
  | null
  | date (d : ℤ)
  | pyDict (key : String) (val : Option ℤ)
  deriving Repr, DecidableEq

/-- A `RequestForQuotationItem` row: the single column the quotation's
save hook reads. -/
structure RFQItemRec where
  delivery_date : Option ℤ
  deriving Repr, DecidableEq

/-- A `RequestForQuotation` row, reduced to its key and the one column
its save hook writes. -/
structure RFQRec where
  id : Option ℕ
  complete_order_delivery_date : DateFieldVal
  deriving Repr, DecidableEq

/-- SQL `MAX` over a nullable date column: `NULL` rows are ignored and
the result is `none` when no non-null value exists. -/
def aggMaxDate : List (Option ℤ) → Option ℤ
  | [] => none
  | none :: xs => aggMaxDate xs
  | some d :: xs =>
      match aggMaxDate xs with
      | none => some d
      | some m => some (max d m)

/-- `RequestForQuotation.save` (models.py 509-511):
`self.complete_order_delivery_date = self.rfq_items.aggregate(Max('delivery_date'))`
assigns the whole aggregate result dict `{'delivery_date__max': ...}` to
the date attribute — the `['delivery_date__max']` subscript used at
models.py 315 for the analogous `sno` computation is missing here — and
then delegates to `super` (whose write of a dict into a `DateField` fails
downstream). -/
def RequestForQuotation.save (self : RFQRec) (rfq_items : List RFQItemRec) :
    RFQRec :=
  { self with
    complete_order_delivery_date := DateFieldVal.pyDict "delivery_date__max" (aggMaxDate (rfq_items.map (·.delivery_date))) }

/-- A `PurchaseOrder` row: the columns its save hook was meant to write. -/
structure PORec where
  id : Option ℕ
  vendor : Option ℕ
  expected_delivery_date : Option ℤ
  total_local : ℚ
  total_usd : ℚ
  created : Option ℕ
  updated : Option ℕ
  deriving Repr, DecidableEq

/-- `PurchaseOrder.save` (models.py 552-558): the first statement
`self.total_local = self.purchase_order_items.Aggregate(Sum(price_subtotal_local))`
evaluates its argument first, and `price_subtotal_local` is an undefined
global name, so every call raises `NameError` before any attribute is
assigned or any row written (`Aggregate`, capitalised, is moreover not a
method of the related manager, and the same holds for the `total_usd`
line). -/
def PurchaseOrder.save (self : PORec) : Except String PORec :=
  .error "NameError: name price_subtotal_local is not defined"

/-- A `PurchaseOrderItem` row: the columns its save hook reads or writes,
plus the abstract base's bookkeeping columns. -/
structure POItemRec where
  id : Option ℕ
  purchase_order : ℕ
  item : ℕ
  quantity_ordered : ℕ
  price_local : ℚ
  price_usd : ℚ
  price_subtotal_local : ℚ
  price_subtotal_usd : ℚ
  created : Option ℕ
  updated : Option ℕ
  deriving Repr, DecidableEq

/-- `PurchaseOrderItem.save` (models.py 585-588): sets
`price_subtotal_local = price_local * quantity_ordered` and
`price_subtotal_usd = price_usd * quantity_ordered` on the in-memory
instance (no rounding in the source), then evaluates
`super(PurchaseOrderItems, self)` — `PurchaseOrderItems` is an undefined
name (the class is `PurchaseOrderItem`), so a `NameError` is raised and
no row is ever written. Returns the mutated instance together with the
outcome for the table. -/
def PurchaseOrderItem.save (self : POItemRec) (db : List POItemRec) :
    POItemRec × Except String (List POItemRec) :=
  let self := { self with
    price_subtotal_local := self.price_local * self.quantity_ordered }
  let self := { self with
    price_subtotal_usd := self.price_usd * self.quantity_ordered }
  (self, .error "NameError: name PurchaseOrderItems is not defined")

/-- The columns of `CommonBaseAbstractModel` its save hook touches;
timestamps are modelled as naturals. -/
structure CommonRec where
  id : Option ℕ
  created : Option ℕ
  updated : Option ℕ
  deriving Repr, DecidableEq

/-- `CommonBaseAbstractModel.save` (models.py 115-121): when the record
already has a primary key, set `updated := now`; otherwise set
`created := now`; then the framework save inserts (assigning the key
`newId`) or updates. -/
def CommonBaseAbstractModel.save (now newId : ℕ) (r : CommonRec) : CommonRec :=
  match r.id with
  | some _ => { r with updated := some now }
  | none => { r with created := some now, id := some newId }

/-- A sequence of saves of one record, oldest first, each with its wall
clock time and the key the framework would assign on insert. -/
def saveSeq (r : CommonRec) (saves : List (ℕ × ℕ)) : CommonRec :=
  saves.foldl (fun r p => CommonBaseAbstractModel.save p.1 p.2 r) r

theorem le_aggMax {l : List ℕ} {x : ℕ} (hx : x ∈ l) :
    ∃ m, aggMax l = some m ∧ x ≤ m := by
  induction l with
  | nil => cases hx
  | cons y ys ih =>
    rcases List.mem_cons.mp hx with rfl | hmem
    · cases hys : aggMax ys with
      | none => exact ⟨x, by simp [aggMax, hys], le_refl x⟩
      | some m => exact ⟨Nat.max x m, by simp [aggMax, hys], Nat.le_max_left x m⟩
    · obtain ⟨m, hm, hle⟩ := ih hmem
      cases ys with
      | nil => cases hmem
      | cons z zs =>
        exact ⟨Nat.max y m, by simp [aggMax] at hm ⊢; rw [hm], le_trans hle (Nat.le_max_right y m)⟩

theorem aggMax_append_singleton (l : List ℕ) (x : ℕ)
    (h : ∀ y ∈ l, y ≤ x) : aggMax (l ++ [x]) = some x := by
  induction l with
  | nil => rfl
  | cons y ys ih =>
    have hy : y ≤ x := h y (List.mem_cons_self y ys)
    have := ih (fun z hz => h z (List.mem_cons_of_mem y hz))
    simp only [List.cons_append, aggMax, List.append_eq]
    rw [this]
    simp [Nat.max_eq_right hy]

theorem snosOf_append (db : List PRRec) (r : PRRec) (o : ℕ) :
    snosOf (db ++ [r]) o
      = snosOf db o ++ (if r.office = o then [r.sno] else []) := by
  simp only [snosOf, List.filter_append, List.map_append]
  by_cases h : r.office = o <;> simp [h]

theorem mem_snosOf_le_max {db : List PRRec} {o x : ℕ}
    (hx : x ∈ snosOf db o) : x ≤ (aggMax (snosOf db o)).getD 0 := by
  obtain ⟨m, hm, hle⟩ := le_aggMax hx
  simpa [hm] using hle

/-- C2: the first save of a `PurchaseRequest` assigns
`sno = (max existing sno of the same office) + 1`, or `1` when the office
has no requests; a save of an already-persisted request returns the record
unchanged, so `sno` is never reassigned; the insert leaves every other
office's `sno` sequence unchanged; and when the office's existing `sno`
values are pairwise distinct they stay pairwise distinct after the insert. -/
theorem purchase_request_sno_spec :
    (∀ (self : PRRec) (statuses : List String) (db : List PRRec) (nid : ℕ),
      "Drafted" ∈ statuses → self.id = none →
      ∃ self' db',
        PurchaseRequest.save self statuses db nid = .ok (self', db') ∧
        self'.sno = (aggMax (snosOf db self.office)).getD 0 + 1 ∧
        (snosOf db self.office = [] → self'.sno = 1) ∧
        (∀ o, o ≠ self.office → snosOf db' o = snosOf db o) ∧
        ((snosOf db self.office).Nodup → (snosOf db' self.office).Nodup)) ∧
    (∀ (self : PRRec) (statuses : List String) (db : List PRRec) (nid k : ℕ),
      self.id = some k →
      ∃ db', PurchaseRequest.save self statuses db nid = .ok (self, db')) := by
  constructor
  · intro self statuses db nid hst hid
    refine ⟨⟨some nid, self.office, (aggMax (snosOf db self.office)).getD 0 + 1,
             "Drafted", self.dollar_exchange_rate⟩,
            db ++ [⟨some nid, self.office, (aggMax (snosOf db self.office)).getD 0 + 1,
             "Drafted", self.dollar_exchange_rate⟩], ?_, rfl, ?_, ?_, ?_⟩
    · simp [PurchaseRequest.save, hid, statusGet, hst]
      rfl
    · intro hempty
      simp [hempty, aggMax]
    · intro o ho
      rw [snosOf_append]
      rw [show (⟨some nid, self.office, (aggMax (snosOf db self.office)).getD 0 + 1,
             "Drafted", self.dollar_exchange_rate⟩ : PRRec).office = self.office from rfl]
      rw [if_neg (fun h => ho h.symm)]
      simp
    · intro hnodup
      rw [snosOf_append]
      rw [show (⟨some nid, self.office, (aggMax (snosOf db self.office)).getD 0 + 1,
             "Drafted", self.dollar_exchange_rate⟩ : PRRec).office = self.office from rfl]
      rw [if_pos rfl]
      rw [List.nodup_append]
      refine ⟨hnodup, List.nodup_singleton _, ?_⟩
      intro x hx hx1
      have hle := mem_snosOf_le_max hx
      have : x = (aggMax (snosOf db self.office)).getD 0 + 1 := by
        simpa using hx1
      omega
  · intro self statuses db nid k hid
    exact ⟨db.map (fun r => if r.id = self.id then self else r),
           by simp [PurchaseRequest.save, hid]⟩

/-- Witness for C2, the specification's worked example: office `0` already
holds requests with `sno` 1, 2, 3, so a new request for office `0` gets
`sno = 4`, while a new request for office `1` starts at `sno = 1`. -/
theorem purchase_request_sno_spec_witness :
    ("Drafted" ∈ ["Drafted"] ∧ (⟨none, 0, 0, "", 2⟩ : PRRec).id = none) ∧
    (PurchaseRequest.save ⟨none, 0, 0, "", 2⟩ ["Drafted"] exPRDb 4).map
      (fun p => p.1.sno) = .ok 4 ∧
    (PurchaseRequest.save ⟨none, 1, 0, "", 2⟩ ["Drafted"] exPRDb 4).map
      (fun p => p.1.sno) = .ok 1 := by
  have h := purchase_request_sno_spec
  refine ⟨⟨List.mem_cons_self _ _, rfl⟩, ?_, ?_⟩
  · obtain ⟨self', db', hsave, hsno, -, -, -⟩ :=
      h.1 ⟨none, 0, 0, "", 2⟩ ["Drafted"] exPRDb 4 (List.mem_cons_self _ _) rfl
    rw [hsave]
    have : (aggMax (snosOf exPRDb 0)).getD 0 = 3 := by decide
    simp [Except.map, hsno, this]
  · obtain ⟨self', db', hsave, hsno, -, -, -⟩ :=
      h.1 ⟨none, 1, 0, "", 2⟩ ["Drafted"] exPRDb 4 (List.mem_cons_self _ _) rfl
    rw [hsave]
    have : (aggMax (snosOf exPRDb 1)).getD 0 = 0 := by decide
    simp [Except.map, hsno, this]

/-- C1: whenever the parent request's exchange rate is nonzero, `Item.save`
succeeds and stores `price_estimated_local_subtotal =
round(price_estimated_local * quantity_requested, 2)`,
`price_estimated_usd = round(price_estimated_local /
dollar_exchange_rate, 2)` and `price_estimated_usd_subtotal =
round(price_estimated_usd * quantity_requested, 2)`. -/
theorem item_save_price_computation (self : ItemRec) (pr : PRRec) (st : ItemsState)
    (h : pr.dollar_exchange_rate ≠ 0) :
    ∃ r st', Item.save self pr st = .ok (r, st') ∧
      r.price_estimated_local_subtotal
        = round2 (self.price_estimated_local * self.quantity_requested) ∧
      r.price_estimated_usd
        = round2 (self.price_estimated_local / pr.dollar_exchange_rate) ∧
      r.price_estimated_usd_subtotal
        = round2 (r.price_estimated_usd * self.quantity_requested) := by
  by_cases hd : self.description_po = "" ∧ ¬ self.description_pr = ""
  · simp only [Item.save, if_pos hd, if_neg h]
    cases hid : self.id with
    | some k =>
        simp only [hid]
        exact ⟨_, _, rfl, rfl, rfl, rfl⟩
    | none =>
        simp only [hid]
        exact ⟨_, _, rfl, rfl, rfl, rfl⟩
  · simp only [Item.save, if_neg hd, if_neg h]
    cases hid : self.id with
    | some k =>
        simp only [hid]
        exact ⟨_, _, rfl, rfl, rfl, rfl⟩
    | none =>
        simp only [hid]
        exact ⟨_, _, rfl, rfl, rfl, rfl⟩

/-- Witness for C1, the specification's worked example: unit price 10.00,
quantity 3, exchange rate 2.00 yield local subtotal 30.00, USD unit price
5.00 and USD subtotal 15.00. -/
theorem item_save_price_computation_witness :
    ((⟨some 1, 0, 1, "Drafted", 2⟩ : PRRec).dollar_exchange_rate ≠ 0) ∧
    ∃ r st', Item.save ⟨none, 0, 1, 3, "w", "", 10, 0, 0, 0⟩
        ⟨some 1, 0, 1, "Drafted", 2⟩ ⟨[], 1⟩ = .ok (r, st') ∧
      r.price_estimated_local_subtotal = 30 ∧
      r.price_estimated_usd = 5 ∧
      r.price_estimated_usd_subtotal = 15 := by
  refine ⟨by norm_num, ?_⟩
  obtain ⟨r, st', hsave, h1, h2, h3⟩ :=
    item_save_price_computation ⟨none, 0, 1, 3, "w", "", 10, 0, 0, 0⟩
      ⟨some 1, 0, 1, "Drafted", 2⟩ ⟨[], 1⟩ (by norm_num)
  refine ⟨r, st', hsave, ?_, ?_, ?_⟩
  · rw [h1]; norm_num [round2]
  · rw [h2]; norm_num [round2]
  · rw [h3, h2]; norm_num [round2]

theorem aggMax_range' (n a : ℕ) :
    aggMax (List.range' (a + 1) n) = if n = 0 then none else some (a + n) := by
  induction n generalizing a with
  | zero => rfl
  | succ m ih =>
    rw [List.range'_succ]
    simp only [aggMax]
    have h2 : a + 1 + 1 = (a + 1) + 1 := rfl
    rw [h2, ih (a + 1)]
    cases m with
    | zero => simp
    | succ l =>
      simp only [Nat.succ_ne_zero, if_false, Option.some.injEq]
      exact (Nat.max_eq_right (show a + 1 ≤ a + 1 + (l + 1) by omega)).trans
        (by omega)

/-- A save of a fresh `Item` (no primary key yet) under a request with a
nonzero exchange rate inserts one row, with `item_sno` one more than the
maximum existing `item_sno` of the same request (0 when there is none). -/
theorem item_save_insert (self : ItemRec) (pr : PRRec) (st : ItemsState)
    (hid : self.id = none) (hrate : pr.dollar_exchange_rate ≠ 0) :
    ∃ r, Item.save self pr st = .ok (r, ⟨st.items ++ [r], st.nextId + 1⟩) ∧
      r.item_sno = (aggMax (itemSnosOf st.items pr.id)).getD 0 + 1 ∧
      r.purchase_request = self.purchase_request ∧
      r.id = some st.nextId := by
  by_cases hd : self.description_po = "" ∧ ¬ self.description_pr = ""
  · simp only [Item.save, if_pos hd, if_neg hrate, hid]
    exact ⟨_, rfl, rfl, rfl, rfl⟩
  · simp only [Item.save, if_neg hd, if_neg hrate, hid]
    exact ⟨_, rfl, rfl, rfl, rfl⟩

theorem applyItemOps_creates (pr : PRRec) (k : ℕ) (hpk : pr.id = some k)
    (hrate : pr.dollar_exchange_rate ≠ 0) :
    ∀ (fs : List NewItemFields) (st : ItemsState),
      st.items.map (·.item_sno) = List.range' 1 st.items.length →
      (∀ r ∈ st.items, r.purchase_request = k) →
      ((applyItemOps pr st (fs.map .create)).items.map (·.item_sno)
          = List.range' 1 (st.items.length + fs.length) ∧
       (applyItemOps pr st (fs.map .create)).items.length
          = st.items.length + fs.length ∧
       ∀ r ∈ (applyItemOps pr st (fs.map .create)).items,
          r.purchase_request = k) := by
  intro fs
  induction fs with
  | nil =>
    intro st hsno hbelong
    exact ⟨by simpa [applyItemOps] using hsno, by simp [applyItemOps],
           by simpa [applyItemOps] using hbelong⟩
  | cons f fs' ih =>
    intro st hsno hbelong
    obtain ⟨r, hsave, hrsno, hrpr, -⟩ := item_save_insert (newItem pr f) pr st rfl hrate
    have hfilter : st.items.filter (fun r => r.purchase_request = k) = st.items := by
      rw [List.filter_eq_self]
      intro a ha
      simpa using hbelong a ha
    have hmax : (aggMax (itemSnosOf st.items pr.id)).getD 0 = st.items.length := by
      rw [hpk]
      simp only [itemSnosOf]
      rw [hfilter, hsno]
      have := aggMax_range' st.items.length 0
      simp only [Nat.zero_add] at this
      rw [this]
      cases st.items.length <;> simp
    have hstep : applyItemOp pr st (.create f) = ⟨st.items ++ [r], st.nextId + 1⟩ := by
      simp only [applyItemOp, hsave]
    have hops : applyItemOps pr st ((f :: fs').map .create)
        = applyItemOps pr ⟨st.items ++ [r], st.nextId + 1⟩ (fs'.map .create) := by
      simp only [List.map_cons, applyItemOps, List.foldl_cons, hstep]
    have hsno1 : (st.items ++ [r]).map (·.item_sno)
        = List.range' 1 (st.items.length + 1) := by
      rw [List.map_append]
      simp only [List.map_cons, List.map_nil]
      rw [hsno, hrsno, hmax, List.range'_concat 1 st.items.length]
      simp [Nat.add_comm]
    have hbelong1 : ∀ x ∈ st.items ++ [r], x.purchase_request = k := by
      intro x hx
      rcases List.mem_append.mp hx with hx | hx
      · exact hbelong x hx
      · rcases List.mem_singleton.mp hx with rfl
        rw [hrpr]
        simp [newItem, hpk]
    have hres := ih ⟨st.items ++ [r], st.nextId + 1⟩
      (by simpa [List.length_append] using hsno1) hbelong1
    rw [hops]
    refine ⟨?_, ?_, hres.2.2⟩
    · rw [hres.1]
      congr 1
      simp [List.length_append]
      omega
    · rw [hres.2.1]
      simp [List.length_append]
      omega

/-- C6 (amended): the first save of an `Item` assigns `item_sno` = (maximum
existing `item_sno` among items of the same request) + 1, defaulting to 1;
and for a purchase request reachable by item creations only (no
deletions), the `item_sno` values of its items form the contiguous
sequence 1..n in creation order. (With deletions the sequence is not
contiguous; see the counterexample.) -/
theorem item_sno_contiguous_under_creates :
    (∀ (self : ItemRec) (pr : PRRec) (st : ItemsState),
       self.id = none → pr.dollar_exchange_rate ≠ 0 →
       ∃ r st', Item.save self pr st = .ok (r, st') ∧
         r.item_sno = (aggMax (itemSnosOf st.items pr.id)).getD 0 + 1) ∧
    (∀ (pr : PRRec) (k : ℕ) (fs : List NewItemFields),
       pr.id = some k → pr.dollar_exchange_rate ≠ 0 →
       ((applyItemOps pr ⟨[], 1⟩ (fs.map .create)).items.map (·.item_sno))
         = List.range' 1 fs.length) := by
  constructor
  · intro self pr st hid hrate
    obtain ⟨r, hsave, hsno, -, -⟩ := item_save_insert self pr st hid hrate
    exact ⟨r, _, hsave, hsno⟩
  · intro pr k fs hpk hrate
    have h := applyItemOps_creates pr k hpk hrate fs ⟨[], 1⟩ rfl
      (by intro r hr; cases hr)
    simpa using h.1

/-- Witness for C6: two successive item creations under one request yield
`item_sno` values `[1, 2]`, and a single fresh save over an empty table
assigns `item_sno = 1`. -/
theorem item_sno_contiguous_under_creates_witness :
    ((⟨some 1, 0, 1, "Drafted", 1⟩ : PRRec).id = some 1 ∧
     (⟨some 1, 0, 1, "Drafted", 1⟩ : PRRec).dollar_exchange_rate ≠ 0) ∧
    ((applyItemOps ⟨some 1, 0, 1, "Drafted", 1⟩ ⟨[], 1⟩
        ([⟨1, "a", 1⟩, ⟨2, "b", 3⟩].map .create)).items.map (·.item_sno))
      = List.range' 1 2 :=
  ⟨⟨rfl, by norm_num⟩,
   item_sno_contiguous_under_creates.2 ⟨some 1, 0, 1, "Drafted", 1⟩ 1
     [⟨1, "a", 1⟩, ⟨2, "b", 3⟩] rfl (by norm_num)⟩

/-- Counterexample to C6 as stated: create two items (`item_sno` 1 and 2),
then delete the first; the surviving `item_sno` values are `[2]`, which is
not a contiguous sequence starting at 1. -/
theorem item_sno_gap_after_delete :
    ((applyItemOps ⟨some 1, 0, 1, "Drafted", 1⟩ ⟨[], 1⟩
        [.create ⟨1, "a", 1⟩, .create ⟨1, "a", 1⟩, .delete 1]).items.map
        (·.item_sno)) = [2] ∧
    ((applyItemOps ⟨some 1, 0, 1, "Drafted", 1⟩ ⟨[], 1⟩
        [.create ⟨1, "a", 1⟩, .create ⟨1, "a", 1⟩, .delete 1]).items.length) = 1 ∧
    ([2] : List ℕ) ≠ List.range' 1 1 := by
  refine ⟨?_, ?_, by decide⟩ <;>
    simp [applyItemOps, applyItemOp, Item.save, newItem, itemSnosOf, aggMax, round2]

/-- C9: `MinValueValidator(0.0)` on `dollar_exchange_rate` accepts the
value 0, yet `Item.save` divides by that rate with no guard, so for a
parent request with exchange rate 0 every item save raises
`DivisionByZero` and stores nothing. -/
theorem item_save_zero_exchange_rate (self : ItemRec) (pr : PRRec) (st : ItemsState)
    (h : pr.dollar_exchange_rate = 0) :
    minValueValidatorOk 0 pr.dollar_exchange_rate ∧
    Item.save self pr st = .error "decimal.DivisionByZero" := by
  constructor
  · simp [minValueValidatorOk, h]
  · simp [Item.save, h]

/-- Witness for C9: a request with exchange rate exactly 0 passes the
field validator, and the save of an item under it raises. -/
theorem item_save_zero_exchange_rate_witness :
    minValueValidatorOk 0 ((⟨some 1, 0, 1, "Drafted", 0⟩ : PRRec).dollar_exchange_rate) ∧
    Item.save ⟨none, 0, 1, 3, "w", "", 10, 0, 0, 0⟩
      ⟨some 1, 0, 1, "Drafted", 0⟩ ⟨[], 1⟩ = .error "decimal.DivisionByZero" :=
  item_save_zero_exchange_rate ⟨none, 0, 1, 3, "w", "", 10, 0, 0, 0⟩
    ⟨some 1, 0, 1, "Drafted", 0⟩ ⟨[], 1⟩ rfl

/-- Counterexample to C3 as stated: with one existing 60% split, a
proposed value of 0 makes the total 60 ≤ 100, yet the form rejects it
("Allocation_percent is required."), so rejection is not *exactly* "sum
exceeds 100". -/
theorem clean_allocation_percent_rejects_zero :
    (aggSum [60]).getD 0 + 0 ≤ 100 ∧
    clean_allocation_percent none (some 1) [60] (some 0)
      = .error "Allocation_percent is required." := by
  constructor
  · norm_num [aggSum]
  · norm_num [clean_allocation_percent]

/-- C3 (amended): a new finance-code split with a numeric proposed value
for an existing item is rejected exactly when the proposed value is zero
(caught by the required-value check) or the sum of the existing
allocation percentages for that item plus the proposed value exceeds 100;
in particular, with one existing split at 60%, a proposed 45% is rejected
and a proposed 40% is accepted. -/
theorem clean_allocation_percent_spec :
    (∀ (item : ℕ) (existing : List ℚ) (p : ℚ),
       (∃ e, clean_allocation_percent none (some item) existing (some p)
          = .error e) ↔
       (p = 0 ∨ (aggSum existing).getD 0 + p > 100)) ∧
    clean_allocation_percent none (some 1) [60] (some 45)
      = .error "Allocations cannot be more than 100%" ∧
    clean_allocation_percent none (some 1) [60] (some 40) = .ok 40 := by
  refine ⟨?_, by norm_num [clean_allocation_percent, aggSum],
          by norm_num [clean_allocation_percent, aggSum]⟩
  intro item existing p
  simp only [clean_allocation_percent]
  by_cases hp : p = 0
  · simp [hp]
  · by_cases hs : (aggSum existing).getD 0 = 0
    · simp only [hp, if_false, hs, not_true, and_false, if_false, ite_eq_iff]
      by_cases hq : p > 100
      · simp [hp, hq, hs]
      · simp [hp, hq, hs]
    · by_cases hq : (aggSum existing).getD 0 + p > 100
      · simp [hp, hs, hq]
      · simp [hp, hs, hq]

/-- Counterexample to C7 as stated: the model-level validator
`validate_gl_account` accepts the three-digit numeric value 123, although
123 is not four digits long. -/
theorem validate_gl_account_accepts_three_digits :
    validate_gl_account (some 123) = .ok () ∧ numDigits 123 ≠ 4 :=
  ⟨rfl, by decide⟩

/-- C7 (amended): the form-level `clean_gl_account` rejects exactly the
non-numeric values and the numeric values whose digit count differs
from 4; the model-level `validate_gl_account` rejects exactly the
non-numeric values and the numeric values with more than four digits —
it accepts shorter ones; every four-digit numeric value is accepted by
both. -/
theorem gl_account_validation_spec :
    (∀ v : Option ℕ, (∃ e, clean_gl_account v = .error e) ↔
       (v = none ∨ ∃ n, v = some n ∧ numDigits n ≠ 4)) ∧
    (∀ v : Option ℕ, (∃ e, validate_gl_account v = .error e) ↔
       (v = none ∨ ∃ n, v = some n ∧ numDigits n > 4)) ∧
    (∀ n : ℕ, numDigits n = 4 →
       validate_gl_account (some n) = .ok () ∧ clean_gl_account (some n) = .ok n) := by
  refine ⟨?_, ?_, ?_⟩
  · intro v
    cases v with
    | none => simp [clean_gl_account]
    | some n =>
      by_cases h : numDigits n > 4 ∨ numDigits n < 4
      · simp only [clean_gl_account, if_pos h]
        constructor
        · intro _
          exact Or.inr ⟨n, rfl, by omega⟩
        · intro _
          exact ⟨_, rfl⟩
      · simp only [clean_gl_account, if_neg h]
        constructor
        · rintro ⟨e, he⟩
          cases he
        · rintro (h' | ⟨m, hm, hne⟩)
          · cases h'
          · cases hm
            omega
  · intro v
    cases v with
    | none => simp [validate_gl_account]
    | some n =>
      by_cases h : numDigits n > 4
      · simp only [validate_gl_account, if_pos h]
        constructor
        · intro _
          exact Or.inr ⟨n, rfl, h⟩
        · intro _
          exact ⟨_, rfl⟩
      · simp only [validate_gl_account, if_neg h]
        constructor
        · rintro ⟨e, he⟩
          cases he
        · rintro (h' | ⟨m, hm, hgt⟩)
          · cases h'
          · cases hm
            omega
  · intro n h4
    constructor
    · simp [validate_gl_account, h4]
    · simp [clean_gl_account, h4]

/-- Witness for C7 (amended): the four-digit value 1234 is accepted by
both the model validator and the form clean method. -/
theorem gl_account_validation_spec_witness :
    numDigits 1234 = 4 ∧
    validate_gl_account (some 1234) = .ok () ∧
    clean_gl_account (some 1234) = .ok 1234 :=
  ⟨by decide, gl_account_validation_spec.2.2 1234 (by decide)⟩

/-- C4 is a code defect: for a quotation with one line item whose
delivery date is day 5, `RequestForQuotation.save` assigns the aggregate
result dict `{'delivery_date__max': 5}` to
`complete_order_delivery_date`, which therefore does not equal the
maximum delivery date 5 (the subsequent database write of a dict into a
date column then fails). -/
theorem rfq_save_assigns_aggregate_dict :
    (RequestForQuotation.save ⟨some 1, .null⟩ [⟨some 5⟩]).complete_order_delivery_date
      = .pyDict "delivery_date__max" (some 5) ∧
    (RequestForQuotation.save ⟨some 1, .null⟩ [⟨some 5⟩]).complete_order_delivery_date
      ≠ .date 5 ∧
    aggMaxDate (([⟨some 5⟩] : List RFQItemRec).map (·.delivery_date)) = some 5 := by
  refine ⟨rfl, ?_, rfl⟩
  intro h
  cases h

/-- C5 is a code defect: every call of `PurchaseOrder.save` raises
`NameError` on the undefined name `price_subtotal_local` before any total
is computed, any vendor copied, or any row written. -/
theorem purchase_order_save_always_raises :
    ∀ self : PORec, PurchaseOrder.save self
      = .error "NameError: name price_subtotal_local is not defined" :=
  fun _ => rfl

/-- C8: `PurchaseOrderItem.save` sets the in-memory subtotals to
`price_local * quantity_ordered` and `price_usd * quantity_ordered`, then
raises `NameError` on the undefined name `PurchaseOrderItems`, so no call
ever persists the record. -/
theorem purchase_order_item_save_always_raises :
    ∀ (self : POItemRec) (db : List POItemRec),
      (PurchaseOrderItem.save self db).2
        = .error "NameError: name PurchaseOrderItems is not defined" ∧
      (PurchaseOrderItem.save self db).1.price_subtotal_local
        = self.price_local * self.quantity_ordered ∧
      (PurchaseOrderItem.save self db).1.price_subtotal_usd
        = self.price_usd * self.quantity_ordered :=
  fun _ _ => ⟨rfl, rfl, rfl⟩

/-- Counterexample to C10 as stated: a fresh `PurchaseOrderItem` (no
primary key, `created` unset) raises on its first save before the common
base logic runs, so its first save does not set `created`. -/
theorem po_item_first_save_leaves_created_null :
    (⟨none, 1, 1, 2, 3, 4, 0, 0, none, none⟩ : POItemRec).created = none ∧
    (PurchaseOrderItem.save ⟨none, 1, 1, 2, 3, 4, 0, 0, none, none⟩ []).1.created
      = none ∧
    (PurchaseOrderItem.save ⟨none, 1, 1, 2, 3, 4, 0, 0, none, none⟩ []).2
      = .error "NameError: name PurchaseOrderItems is not defined" :=
  ⟨rfl, rfl, rfl⟩

/-- C10 (amended): for every save that reaches
`CommonBaseAbstractModel.save` (all models except `PurchaseOrder` and
`PurchaseOrderItem`, whose overridden saves raise `NameError` first): the
first save of a fresh record sets `created` to the current time, leaves
`updated` null, and assigns the key; every save of a persisted record
sets `updated` to the current time and leaves `created` unchanged; and
over any sequence of subsequent saves `created` never changes, so it is
assigned exactly once. -/
theorem common_base_timestamps_spec :
    (∀ t n : ℕ,
       (CommonBaseAbstractModel.save t n ⟨none, none, none⟩).created = some t ∧
       (CommonBaseAbstractModel.save t n ⟨none, none, none⟩).updated = none ∧
       (CommonBaseAbstractModel.save t n ⟨none, none, none⟩).id = some n) ∧
    (∀ (r : CommonRec) (t n : ℕ), r.id.isSome →
       (CommonBaseAbstractModel.save t n r).updated = some t ∧
       (CommonBaseAbstractModel.save t n r).created = r.created ∧
       (CommonBaseAbstractModel.save t n r).id = r.id) ∧
    (∀ (r : CommonRec) (rest : List (ℕ × ℕ)), r.id.isSome →
       (saveSeq r rest).created = r.created) := by
  refine ⟨fun t n => ⟨rfl, rfl, rfl⟩, ?_, ?_⟩
  · intro r t n hid
    match r, hid with
    | ⟨some k, c, u⟩, _ => exact ⟨rfl, rfl, rfl⟩
  · intro r rest
    induction rest generalizing r with
    | nil => intro _; rfl
    | cons p rest ih =>
      intro hid
      match r, hid with
      | ⟨some k, c, u⟩, _ =>
        have hstep : CommonBaseAbstractModel.save p.1 p.2 ⟨some k, c, u⟩
            = ⟨some k, c, some p.1⟩ := rfl
        have : saveSeq ⟨some k, c, u⟩ (p :: rest)
            = saveSeq ⟨some k, c, some p.1⟩ rest := by
          simp [saveSeq, hstep]
        rw [this]
        exact ih ⟨some k, c, some p.1⟩ rfl

/-- Witness for C10 (amended): a fresh record saved at time 5 has
`created = 5` and no `updated`; saving it again at time 7 sets
`updated = 7` and keeps `created = 5`, as does any further sequence. -/
theorem common_base_timestamps_spec_witness :
    ((CommonBaseAbstractModel.save 5 1 ⟨none, none, none⟩).created = some 5 ∧
     (CommonBaseAbstractModel.save 5 1 ⟨none, none, none⟩).updated = none) ∧
    ((⟨some 1, some 5, none⟩ : CommonRec).id.isSome = true) ∧
    ((CommonBaseAbstractModel.save 7 2 ⟨some 1, some 5, none⟩).updated = some 7 ∧
     (CommonBaseAbstractModel.save 7 2 ⟨some 1, some 5, none⟩).created = some 5) ∧
    (saveSeq ⟨some 1, some 5, none⟩ [(7, 2), (9, 3)]).created = some 5 := by
  refine ⟨⟨(common_base_timestamps_spec.1 5 1).1, (common_base_timestamps_spec.1 5 1).2.1⟩,
          rfl, ?_, common_base_timestamps_spec.2.2 ⟨some 1, some 5, none⟩ [(7, 2), (9, 3)] rfl⟩
  have h := common_base_timestamps_spec.2.1 ⟨some 1, some 5, none⟩ 7 2 rfl
  exact ⟨h.1, h.2.1⟩

end Epro
